import Mathlib

/-
  Verification development for the tokenizer layer engine
  (src/src/tokenizer/Layer.js).

  The pixel-level part embeds the raster surface contract described in the
  design document (section 3, "Raster": row-major RGBA bytes, 0-255) and the
  mask-creation routine Layer.createOriginalMask together with its helpers
  Layer.isTransparent, Layer.isCompletelyTransparent and
  Layer.isCompletelyOpaque.

  The numeric constants TRANSPARENCY_THRESHOLD and MASK_DENSITY live in
  src/constants.js, which is not part of the snapshot; the design document
  only calls them "a fixed threshold" and a "fixed density", so every
  definition below takes them as explicit parameters `T` and `D` and the
  theorems quantify over them.
-/

namespace Tokenizer

/-- A raster: width, height and a row-major RGBA byte buffer
(4 bytes per pixel), mirroring the data model of the design document. -/
structure Raster where
  width : Nat
  height : Nat
  data : List Nat
  deriving Repr, DecidableEq

/-- Every fourth byte of an RGBA buffer, starting at offset 3: the alpha
channel, in the order the per-pixel loops of Layer.js visit it. -/
def alphaBytes : List Nat → List Nat
  | _ :: _ :: _ :: a :: rest => a :: alphaBytes rest
  | _ => []

/-- Embedding of Layer.isTransparent (Layer.js:127-129):
`CONSTANTS.TRANSPARENCY_THRESHOLD < pixels.data[(((y * pixels.width) + x) * 4) + 3]`.
`T` stands for the threshold constant. -/
def isTransparent (T : Nat) (pixels : Raster) (x y : Nat) : Bool :=
  decide (T < pixels.data.getD ((((y * pixels.width) + x) * 4) + 3) 0)

/-- Embedding of Layer.isCompletelyTransparent (Layer.js:172-181): walk the
alpha bytes of the source; any byte strictly above the threshold makes the
layer not completely transparent. -/
def isCompletelyTransparent (T : Nat) (source : Raster) : Bool :=
  (alphaBytes source.data).all (fun a => !decide (T < a))

/-- Embedding of Layer.isCompletelyOpaque (Layer.js:183-191): walk the
alpha bytes of the source; any byte strictly below the threshold makes the
layer not completely opaque. -/
def isCompletelyOpaque (T : Nat) (source : Raster) : Bool :=
  (alphaBytes source.data).all (fun a => !decide (a < T))

/-- The per-pixel classifier closure built at Layer.js:229 and handed to the
contour tracer: `(x, y) => Layer.isTransparent(pixels, x, y)`. -/
def contourClassifier (T : Nat) (pixels : Raster) : Nat → Nat → Bool :=
  fun x y => isTransparent T pixels x y

/-- RGBA quadruple of the pixel at (x, y); coordinates outside the raster
read as transparent black, matching the platform behaviour of sampling
outside a canvas. -/
def pixelAt (r : Raster) (x y : Nat) : List Nat :=
  if x < r.width ∧ y < r.height then
    [r.data.getD (((y * r.width) + x) * 4) 0,
     r.data.getD (((y * r.width) + x) * 4 + 1) 0,
     r.data.getD (((y * r.width) + x) * 4 + 2) 0,
     r.data.getD (((y * r.width) + x) * 4 + 3) 0]
  else [0, 0, 0, 0]

/-- Row-major pixel buffer built from a per-pixel RGBA function. -/
def renderPixels (w h : Nat) (f : Nat → Nat → List Nat) : List Nat :=
  (List.range h).flatMap (fun j => (List.range w).flatMap (fun i => f i j))

/-- Modelled from the spec: source-over compositing of one RGBA sample onto
another (Raster Surface contract, design document section 3). The platform
operates in floating point; this integer model agrees with it exactly when
the source sample is fully opaque or fully transparent, the only cases the
mask pipeline produces. -/
def compositeOver (src dst : List Nat) : List Nat :=
  let sa := src.getD 3 0
  if sa = 255 then src
  else if sa = 0 then dst
  else
    let da := dst.getD 3 0
    let oa := sa + (da * (255 - sa)) / 255
    let mix := fun k =>
      (src.getD k 0 * sa + (dst.getD k 0 * da * (255 - sa)) / 255) / 255
    [mix 0, mix 1, mix 2, oa]

/-- Modelled from the spec: the nine-argument draw-image-with-region raster
operation (Raster Surface contract): copy the source rectangle
(sx, sy, sw, sh) scaled onto the destination rectangle (dx, dy, dw, dh),
compositing source-over; sampling is nearest-neighbour, which agrees with
the platform on the constant-colour sources used by the mask pipeline. -/
def drawImageRegion (dst src : Raster) (sx sy sw sh dx dy dw dh : Nat) : Raster :=
  { dst with data := renderPixels dst.width dst.height (fun i j =>
      if 0 < dw ∧ 0 < dh ∧ dx ≤ i ∧ i < dx + dw ∧ dy ≤ j ∧ j < dy + dh then
        compositeOver
          (pixelAt src (sx + ((i - dx) * sw) / dw) (sy + ((j - dy) * sh) / dh))
          (pixelAt dst i j)
        else pixelAt dst i j) }

/-- A freshly created canvas: all pixels transparent black. -/
def blankRaster (w h : Nat) : Raster :=
  ⟨w, h, List.replicate (w * h * 4) 0⟩

/-- clearRect over the whole canvas: every pixel becomes transparent black. -/
def clearAll (r : Raster) : Raster :=
  { r with data := List.replicate (r.width * r.height * 4) 0 }

/-- fillRect(0, 0, width, height) with the fill colour that Layer.js:218
forces to black just before the branch: every pixel becomes opaque black.
Only the full-canvas rectangle is ever filled by createOriginalMask. -/
def fillRectBlackFull (r : Raster) : Raster :=
  { r with data := renderPixels r.width r.height (fun _ _ => [0, 0, 0, 255]) }

/-- The path vertices actually fed to the canvas by the drawing branch of
createOriginalMask (Layer.js:231-237): moveTo(points[0][0], points[0][4])
followed by lineTo(points[i][0], points[i][1]) for i ≥ 1.  points[0][4]
reads index 4 of a 2-element point: in the host language the value is
undefined, the coordinate becomes NaN and the platform drops that path
command, so a vertex is kept only when both of its coordinates exist. -/
def pathVertices (points : List (List Rat)) : List (Rat × Rat) :=
  match points with
  | [] => []
  | p0 :: rest =>
    (match p0.get? 0, p0.get? 4 with
     | some x, some y => [(x, y)]
     | _, _ => []) ++
    rest.filterMap (fun p =>
      match p.get? 0, p.get? 1 with
      | some x, some y => some (x, y)
      | _, _ => none)

/-- Consecutive edges of the closed polygon through the given vertices. -/
def closedEdges (vs : List (Rat × Rat)) : List ((Rat × Rat) × (Rat × Rat)) :=
  match vs with
  | [] => []
  | v :: tail => vs.zip (tail ++ [v])

/-- One even-odd crossing test for a horizontal ray from (px, py). -/
def edgeCrosses (px py : Rat) (e : (Rat × Rat) × (Rat × Rat)) : Bool :=
  let x1 := e.1.1; let y1 := e.1.2; let x2 := e.2.1; let y2 := e.2.2
  (decide ((y1 ≤ py ∧ py < y2) ∨ (y2 ≤ py ∧ py < y1))) &&
    decide (px < x1 + (py - y1) * (x2 - x1) / (y2 - y1))

/-- Even-odd membership of a point in the closed polygon. -/
def insidePolygon (vs : List (Rat × Rat)) (px py : Rat) : Bool :=
  ((closedEdges vs).filter (edgeCrosses px py)).length % 2 = 1

/-- Modelled from the spec: rasterize the interior of the closed polyline as
solid black, everything outside as cleared (design document section 4.1);
pixels are tested at their centres with the even-odd rule. -/
def fillPathBlack (r : Raster) (vs : List (Rat × Rat)) : Raster :=
  { r with data := renderPixels r.width r.height (fun i j =>
      if insidePolygon vs ((i : Rat) + 1/2) ((j : Rat) + 1/2) then [0, 0, 0, 255]
      else pixelAt r i j) }

/-- The intermediate working surface of createOriginalMask
(Layer.js:202-207): a square canvas of side D + 2 whose transparent border
keeps the boundary walk bounded, with this.canvas drawn into its interior
rectangle (1, 1, D, D) from the source rectangle (1, 1, width, height). -/
def maskTemp (D : Nat) (canvas : Raster) : Raster :=
  drawImageRegion (blankRaster (D + 2) (D + 2)) canvas
    1 1 canvas.width canvas.height 1 1 D D

/-- The final clip of createOriginalMask (Layer.js:243-248): a fresh canvas
of the source dimensions receives the interior (1, 1, D, D) of the working
surface, scaled to the full mask. -/
def finishMask (D : Nat) (source temp : Raster) : Raster :=
  drawImageRegion (blankRaster source.width source.height) temp
    1 1 D D 0 0 source.width source.height

/-- Embedding of Layer.createOriginalMask (Layer.js:200-249). `T` is the
transparency threshold and `D` the mask density (CONSTANTS values from
src/constants.js, outside the snapshot). `canvas` is this.canvas, `source`
is this.source. `points` is the polyline returned by geom.contour applied
to `contourClassifier T pixels`; the tracer itself (src/libs/MarchingSquares.js)
is outside the snapshot, so the point list is a parameter. The result is
the new renderedMask raster; `none` models the TypeError raised when the
drawing branch evaluates points[0][0] on an empty point list. -/
def createOriginalMask (T D : Nat) (canvas source : Raster)
    (points : List (List Rat)) : Option Raster :=
  if isCompletelyTransparent T source then
    some (finishMask D source (clearAll (maskTemp D canvas)))
  else if isCompletelyOpaque T source then
    -- clearRect then fillRect; the trailing fill() has an empty current path
    some (finishMask D source (fillRectBlackFull (clearAll (maskTemp D canvas))))
  else
    match points.get? 0 with
    | none => none
    | some _ =>
      some (finishMask D source
        (fillPathBlack (clearAll (maskTemp D canvas)) (pathVertices points)))

/-- RGBA colour, as carried by src/libs/Color.js. -/
structure Color where
  red : Nat
  green : Nat
  blue : Nat
  alpha : Nat
  deriving Repr, DecidableEq

/-- Embedding of the per-pixel loop body run for one reference colour in
Layer.applyTransparentPixels (Layer.js:438-452).  The pixel Color is built
exactly as at Layer.js:439-444, where the second buffer byte is assigned to
the blue field and the third to the green field (the code swaps the two
names).  `neighbor` stands for Color.isNeighborColor (src/libs/Color.js,
outside the snapshot); the theorems quantify over every such predicate. -/
def zeroMatch (neighbor : Color → Color → Bool) (color : Color) :
    List Nat → List Nat
  | r :: g :: b :: a :: rest =>
    let pixelColor : Color := { red := r, blue := g, green := b, alpha := a }
    (if neighbor color pixelColor then [0, 0, 0, 0] else [r, g, b, a]) ++
      zeroMatch neighbor color rest
  | l => l

/-- Embedding of Layer.applyTransparentPixels (Layer.js:431-456): early
return when no reference colour is registered, else one full pass of
zeroMatch per reference colour, in registration order, over the same
buffer. -/
def applyTransparentPixels (neighbor : Color → Color → Bool)
    (colors : List Color) (data : List Nat) : List Nat :=
  if colors.length = 0 then data
  else colors.foldl (fun d c => zeroMatch neighbor c d) data

/-- A peer layer as seen by the mask resolver: its id and whether it
provides a mask. -/
structure ViewLayer where
  id : Nat
  providesMask : Bool
  deriving Repr, DecidableEq

/-- The stack container, bottom layer first. -/
structure View where
  layers : List ViewLayer
  deriving Repr, DecidableEq

/-- Modelled from the spec: the stack query isOriginLayerHigher(idA, idB)
of the view collaborator (not under the snapshot) — "true if idA sits
above idB in draw order" (design document section 3). -/
def View.isOriginLayerHigher (v : View) (a b : Nat) : Bool :=
  match v.layers.findIdx? (fun l => l.id = a),
        v.layers.findIdx? (fun l => l.id = b) with
  | some ia, some ib => decide (ib < ia)
  | _, _ => false

/-- Modelled from the spec: view.maskIds of the view collaborator — the ids
of every mask-providing layer in the stack, in stack order (design
document sections 3 and 4.3). -/
def View.maskIds (v : View) : List Nat :=
  (v.layers.filter (fun l => l.providesMask)).map (fun l => l.id)

/-- Modelled from the spec: view.getMaskLayer of the view collaborator —
look a layer up by id. -/
def View.getMaskLayer (v : View) (i : Nat) : Option ViewLayer :=
  v.layers.find? (fun l => l.id = i)

/-- Embedding of the mask-provider selection of Layer.redraw
(Layer.js:526-546): the id source is appliedMaskIds when customMaskLayers
is set and view.maskIds otherwise, and an id is applied when getMaskLayer
finds a layer and, in the default mode, that layer sits higher in the
stack than this one. -/
def redrawMaskProviders (v : View) (customMaskLayers : Bool)
    (appliedMaskIds : List Nat) (selfId : Nat) : List Nat :=
  let maskIds := if customMaskLayers then appliedMaskIds else v.maskIds
  maskIds.filter (fun maskId =>
    (v.getMaskLayer maskId).isSome &&
      (customMaskLayers || (!customMaskLayers && v.isOriginLayerHigher maskId selfId)))

/-- One 2D-context call issued by Layer.applyTransformations, recorded with
its arguments.  The rotate call receives the rotation in degrees times
CONSTANTS.TO_RADIANS; the op records the degree value being converted. -/
inductive CtxOp where
  | resetTransform
  | clearRect (x y w h : Rat)
  | translate (x y : Rat)
  | scale (sx sy : Rat)
  | rotate (degrees : Rat)
  | setGlobalAlpha (a : Rat)
  deriving Repr, DecidableEq

/-- Pixel content of a mutable canvas.  Content produced by a transformed
platform draw is represented freely by the exact call that produced it
(`draw`), since the platform renderer is an external collaborator; equal
content values are byte-identical rasters. -/
inductive CanvasContent where
  | pixels (data : List Nat)
  | draw (base : CanvasContent) (ops : List CtxOp) (src : CanvasContent)
      (dx dy dw dh : Rat)
  deriving Repr, DecidableEq

/-- A mutable canvas handle: identity, size and content.  Two handles with
the same ref alias the same pixels. -/
structure Canvas where
  ref : Nat
  width : Nat
  height : Nat
  content : CanvasContent
  deriving Repr, DecidableEq

/-- Embedding of Utils.cloneCanvas (src/libs/Utils.js, outside the
snapshot; the design document specifies a value copy into a fresh
canvas): same size and bytes, new identity. -/
def cloneCanvas (fresh : Nat) (c : Canvas) : Canvas := { c with ref := fresh }

/-- A point object ({x, y}). -/
structure Pos where
  x : Rat
  y : Rat
  deriving Repr, DecidableEq

/-- The state of a Layer, with the fields set up by the constructor
(Layer.js:10-76) that the verified operations read or write.  Numbers of
the host language are modelled as rationals. -/
structure Layer where
  id : Nat
  position : Pos
  scale : Rat
  rotation : Rat
  center : Pos
  mirror : Rat
  flipped : Bool
  active : Bool
  providesMask : Bool
  renderedMask : Option Canvas
  mask : Option Canvas
  sourceMask : Option Canvas
  maskCompositeOperation : String
  compositeOperation : String
  customMask : Bool
  appliedMaskIds : List Nat
  customMaskLayers : Bool
  alpha : Rat
  visible : Bool
  alphaPixelColors : List Color
  previousAlphaPixelColors : Option (List Color)
  canvas : Canvas
  source : Canvas
  preview : Canvas
  deriving Repr, DecidableEq

/-- Embedding of Layer.rotate (Layer.js:421-423):
`this.rotation += degree * 2`. -/
def Layer.rotate (l : Layer) (degree : Rat) : Layer :=
  { l with rotation := l.rotation + degree * 2 }

/-- Embedding of Layer.translate (Layer.js:407-411):
`this.position.x -= dx; this.position.y -= dy;` — the redraw call on the
following line is commented out in the source. -/
def Layer.translate (l : Layer) (dx dy : Rat) : Layer :=
  { l with position := ⟨l.position.x - dx, l.position.y - dy⟩ }

/-- The context calls made by Layer.applyTransformations
(Layer.js:462-470), in order. -/
def Layer.applyTransformationsOps (l : Layer) (alpha : Bool) : List CtxOp :=
  [.resetTransform,
   .clearRect 0 0 (l.source.width : Rat) (l.source.height : Rat),
   .translate l.center.x l.center.y,
   .scale (l.mirror * 1) 1,
   .rotate l.rotation,
   .translate (-l.center.x) (-l.center.y)] ++
    (if alpha then [.setGlobalAlpha l.alpha] else [])

/-- The transform setup of the scratch-raster pass of Layer.redraw
(Layer.js:511): the call `this.applyTransformations(originalContext,
this.source, false)` passes this.source — always truthy — in the alpha
slot, so the global alpha is applied. -/
def Layer.redrawOriginalOps (l : Layer) : List CtxOp :=
  l.applyTransformationsOps true

/-- The transform setup of the mask reprojection (Layer.js:475):
`this.applyTransformations(context, false)`. -/
def Layer.recalculateMaskOps (l : Layer) : List CtxOp :=
  l.applyTransformationsOps false

/-- The transform setup of the tint pass (Layer.js:491):
`this.applyTransformations(tintContext, false)`. -/
def Layer.applyTintOps (l : Layer) : List CtxOp :=
  l.applyTransformationsOps false

/-- The subsequence of context calls that change the current transform
matrix: clearRect and globalAlpha assignment leave it untouched. -/
def transformPart : List CtxOp → List CtxOp :=
  List.filter (fun op => match op with
    | .clearRect _ _ _ _ => false
    | .setGlobalAlpha _ => false
    | _ => true)

/-- Embedding of Layer.recalculateMask (Layer.js:472-484): when a working
mask and a rendered mask exist and no custom mask is installed, reproject
the working mask onto the rendered mask under the composed transform,
drawn at position scaled by the layer scale; otherwise do nothing. -/
def Layer.recalculateMask (l : Layer) : Layer :=
  match l.mask, l.renderedMask with
  | some m, some rm =>
    if !l.customMask then
      { l with renderedMask := some { rm with content :=
          (CanvasContent.draw rm.content (l.applyTransformationsOps false) m.content
            l.position.x l.position.y
            ((l.source.width : Rat) * l.scale) ((l.source.height : Rat) * l.scale)) } }
    else l
  | _, _ => l

/-- Embedding of Layer.applyCustomMask (Layer.js:142-149): set the
customMask flag, install the provided mask, and draw it onto renderedMask
over the rectangle (0, 0, canvas.width, canvas.height); none models the
TypeError raised when renderedMask is absent.  The callback argument only
notifies the UI. -/
def Layer.applyCustomMask (l : Layer) (mask : Canvas) : Option Layer :=
  match l.renderedMask with
  | some rm =>
    some { l with
           customMask := true,
           mask := some mask,
           renderedMask := some { rm with content :=
             (CanvasContent.draw rm.content [] mask.content 0 0
               (l.canvas.width : Rat) (l.canvas.height : Rat)) } }
  | none => none

/-- Embedding of Layer.clone (Layer.js:78-125).  The fresh layer built by
Layer.fromImage or Layer.fromColor at Layer.js:95-97 depends on external
collaborators (the DOM canvas factory, the decoded image, persisted
settings), so it enters as the `fresh` parameter; `r1 r2 r3` are the fresh
canvas identities consumed by the three Utils.cloneCanvas calls at
Layer.js:110-112.  Lines 111 and 112 assign to `this.sourceMask` and
`this.renderedMask` — fields of the original layer — rather than to the
new layer; the embedding keeps that behaviour and returns the pair
(returned clone, original layer after the call). -/
def Layer.clone (l : Layer) (fresh : Layer) (r1 r2 r3 : Nat) : Layer × Layer :=
  let n0 := { fresh with
    active := false,
    scale := l.scale,
    rotation := l.rotation,
    position := (⟨l.position.x, l.position.y⟩ : Pos),
    center := l.center,
    mirror := l.mirror,
    flipped := l.flipped,
    visible := l.visible,
    alpha := l.alpha }
  let n1 := match l.mask with
    | some m => { n0 with mask := some (cloneCanvas r1 m) }
    | none => n0
  let orig1 := match l.sourceMask with
    | some sm => { l with sourceMask := some (cloneCanvas r2 sm) }
    | none => l
  let orig2 := match orig1.renderedMask with
    | some rm => { orig1 with renderedMask := some (cloneCanvas r3 rm) }
    | none => orig1
  let n2 := { n1 with
    customMask := l.customMask,
    customMaskLayers := l.customMaskLayers,
    appliedMaskIds := l.appliedMaskIds,
    compositeOperation := l.compositeOperation,
    maskCompositeOperation := l.maskCompositeOperation,
    alphaPixelColors := l.alphaPixelColors,
    previousAlphaPixelColors :=
      match l.previousAlphaPixelColors with
      | some s => some s
      | none => n1.previousAlphaPixelColors }
  (n2, orig2)

/-! Helper lemmas about the raster primitives. -/

theorem getD_replicate_zero (n k : Nat) : (List.replicate n (0 : Nat)).getD k 0 = 0 := by
  induction n generalizing k with
  | zero => simp [List.getD]
  | succ m ih =>
    cases k with
    | zero => simp [List.replicate_succ]
    | succ k2 => simp [List.replicate_succ, ih k2]

theorem pixelAt_allzero (w h n x y : Nat) :
    pixelAt ⟨w, h, List.replicate n 0⟩ x y = [0, 0, 0, 0] := by
  unfold pixelAt
  split
  · simp [getD_replicate_zero]
  · rfl

theorem compositeOver_zero_src (d : List Nat) : compositeOver [0, 0, 0, 0] d = d := rfl

theorem compositeOver_opaque_src (d : List Nat) :
    compositeOver [0, 0, 0, 255] d = [0, 0, 0, 255] := rfl

theorem flatMap_const {α : Type} (l : List α) (g : α → List Nat) (c : List Nat)
    (h : ∀ x ∈ l, g x = c) : l.flatMap g = (List.replicate l.length c).flatten := by
  induction l with
  | nil => rfl
  | cons a t ih =>
    have ha : g a = c := h a (by simp)
    have ht : ∀ x ∈ t, g x = c := fun x hx => h x (by simp [hx])
    rw [List.flatMap_cons, ha, ih ht, List.length_cons, List.replicate_succ,
      List.flatten_cons]

theorem join_replicate_join (h w : Nat) (c : List Nat) :
    (List.replicate h ((List.replicate w c).flatten)).flatten =
      (List.replicate (h * w) c).flatten := by
  induction h with
  | zero => simp
  | succ m ih =>
    have harith : (m + 1) * w = w + m * w := by ring
    rw [List.replicate_succ, List.flatten_cons, ih, harith, List.replicate_add,
      List.flatten_append]

theorem renderPixels_const (w h : Nat) (f : Nat → Nat → List Nat) (c : List Nat)
    (hf : ∀ i j, i < w → j < h → f i j = c) :
    renderPixels w h f = (List.replicate (h * w) c).flatten := by
  unfold renderPixels
  rw [flatMap_const _ _ ((List.replicate w c).flatten) ?_, List.length_range,
    join_replicate_join]
  intro j hj
  rw [flatMap_const _ _ c ?_, List.length_range]
  intro i hi
  exact hf i j (List.mem_range.mp hi) (List.mem_range.mp hj)

theorem alphaBytes_join_quad (n r g b a : Nat) :
    alphaBytes ((List.replicate n [r, g, b, a]).flatten) = List.replicate n a := by
  induction n with
  | zero => rfl
  | succ m ih => simp [List.replicate_succ, alphaBytes, ih]

theorem getD_join_quad (r g b a : Nat) :
    ∀ (n k j : Nat), k < n → j < 4 →
      ((List.replicate n [r, g, b, a]).flatten).getD (4 * k + j) 0 = [r, g, b, a].getD j 0 := by
  intro n
  induction n with
  | zero => intro k j hk _; omega
  | succ m ih =>
    intro k j hk hj
    cases k with
    | zero =>
      have hj4 : j = 0 ∨ j = 1 ∨ j = 2 ∨ j = 3 := by omega
      rcases hj4 with rfl | rfl | rfl | rfl <;> simp [List.replicate_succ, List.getD]
    | succ k2 =>
      have harith : 4 * (k2 + 1) + j = 4 * k2 + j + 1 + 1 + 1 + 1 := by ring
      rw [harith]
      simpa [List.replicate_succ, List.getD] using ih k2 j (by omega) hj

theorem grid_index_lt (x y w h : Nat) (hx : x < w) (hy : y < h) : y * w + x < h * w :=
  calc y * w + x < y * w + w := by omega
    _ = (y + 1) * w := by ring
    _ ≤ h * w := Nat.mul_le_mul_right w hy

theorem pixelAt_quadJoin (w h x y r g b a : Nat) (hx : x < w) (hy : y < h) :
    pixelAt ⟨w, h, (List.replicate (h * w) [r, g, b, a]).flatten⟩ x y = [r, g, b, a] := by
  have hk : y * w + x < h * w := grid_index_lt x y w h hx hy
  have h0 := getD_join_quad r g b a (h * w) (y * w + x) 0 hk (by omega)
  have h1 := getD_join_quad r g b a (h * w) (y * w + x) 1 hk (by omega)
  have h2 := getD_join_quad r g b a (h * w) (y * w + x) 2 hk (by omega)
  have h3 := getD_join_quad r g b a (h * w) (y * w + x) 3 hk (by omega)
  have e0 : ((y * w) + x) * 4 = 4 * (y * w + x) + 0 := by ring
  have e1 : ((y * w) + x) * 4 + 1 = 4 * (y * w + x) + 1 := by ring
  have e2 : ((y * w) + x) * 4 + 2 = 4 * (y * w + x) + 2 := by ring
  have e3 : ((y * w) + x) * 4 + 3 = 4 * (y * w + x) + 3 := by ring
  unfold pixelAt
  rw [if_pos ⟨hx, hy⟩]
  rw [e3, e2, e1, e0, h0, h1, h2, h3]
  rfl

theorem sample_div_lt (i w D : Nat) (hi : i < w) : 1 + (i * D) / w < D + 2 := by
  have hw : 0 < w := by omega
  have hle : (i * D) / w ≤ D := by
    calc (i * D) / w ≤ (w * D) / w :=
          Nat.div_le_div_right (Nat.mul_le_mul_right D (Nat.le_of_lt hi))
      _ = D := Nat.mul_div_cancel_left D (by omega)
  omega

/-! Sample values used by witnesses and counterexamples. -/

/-- A tiny 1 by 1 canvas with the given identity and RGBA bytes. -/
def sampleCanvas (r : Nat) (d : List Nat) : Canvas :=
  ⟨r, 1, 1, CanvasContent.pixels d⟩

/-- A concrete layer in the state the constructor plus createMask leaves
behind, used as input for witnesses. -/
def baseLayer : Layer where
  id := 0
  position := ⟨0, 0⟩
  scale := 1
  rotation := 0
  center := ⟨1/2, 1/2⟩
  mirror := 1
  flipped := false
  active := false
  providesMask := false
  renderedMask := some (sampleCanvas 3 [9, 9, 9, 9])
  mask := some (sampleCanvas 1 [1, 2, 3, 4])
  sourceMask := some (sampleCanvas 2 [5, 6, 7, 8])
  maskCompositeOperation := "source-in"
  compositeOperation := "source-over"
  customMask := false
  appliedMaskIds := []
  customMaskLayers := false
  alpha := 1
  visible := true
  alphaPixelColors := []
  previousAlphaPixelColors := none
  canvas := sampleCanvas 10 [0, 0, 0, 0]
  source := sampleCanvas 11 [0, 0, 0, 0]
  preview := sampleCanvas 12 [0, 0, 0, 0]

/-- baseLayer after a hand-painted mask was installed. -/
def customMaskedLayer : Layer :=
  { baseLayer with customMask := true }

/-! Claim theorems. -/

/-- C1 counterexample: at threshold 100, a fully opaque pixel (alpha byte
255) at the in-range coordinate (0, 0) of a 1 by 1 buffer is classified
true by the classifier handed to the contour tracer, although its alpha is
not below the threshold, so the claimed equivalence is false here. -/
theorem contourClassifier_below_threshold_counterexample :
    ¬ (contourClassifier 100 ⟨1, 1, [0, 0, 0, 255]⟩ 0 0 = true ↔
        (⟨1, 1, [0, 0, 0, 255]⟩ : Raster).data.getD
          ((((0 * (⟨1, 1, [0, 0, 0, 255]⟩ : Raster).width) + 0) * 4) + 3) 0 < 100) := by
  decide

/-- C1 (amended): for every threshold, pixel buffer and in-range
coordinate, the classifier handed to the contour tracer returns true
exactly when the alpha byte at (x, y) is strictly ABOVE the transparency
threshold — it flags opaque pixels, the opposite polarity of both its own
name and the claim. -/
theorem contourClassifier_true_iff_alpha_above (T : Nat) (pixels : Raster)
    (x y : Nat) (hx : x < pixels.width) (hy : y < pixels.height) :
    (contourClassifier T pixels x y = true ↔
      T < pixels.data.getD ((((y * pixels.width) + x) * 4) + 3) 0) := by
  simp [contourClassifier, isTransparent]

/-- Witness for C1 (amended) at threshold 100 on a 1 by 1 opaque buffer. -/
theorem contourClassifier_true_iff_alpha_above_witness :
    (0 < (⟨1, 1, [0, 0, 0, 255]⟩ : Raster).width ∧
        0 < (⟨1, 1, [0, 0, 0, 255]⟩ : Raster).height) ∧
      (contourClassifier 100 ⟨1, 1, [0, 0, 0, 255]⟩ 0 0 = true ↔
        100 < (⟨1, 1, [0, 0, 0, 255]⟩ : Raster).data.getD
          ((((0 * (⟨1, 1, [0, 0, 0, 255]⟩ : Raster).width) + 0) * 4) + 3) 0) :=
  ⟨⟨by decide, by decide⟩,
    contourClassifier_true_iff_alpha_above 100 ⟨1, 1, [0, 0, 0, 255]⟩ 0 0
      (by decide) (by decide)⟩

/-- C5: the composed affine transform is built in exactly the canonical
order — reset to identity, translate to the center, mirror as a horizontal
scale with vertical scale 1, rotate by the rotation (degrees, converted to
radians by the recorded op), translate back by minus the center — and the
very same composition is set up for the redraw scratch pass, the mask
reprojection and the tint pass. -/
theorem transform_composition_canonical (l : Layer) :
    transformPart l.redrawOriginalOps =
        [CtxOp.resetTransform,
         CtxOp.translate l.center.x l.center.y,
         CtxOp.scale l.mirror 1,
         CtxOp.rotate l.rotation,
         CtxOp.translate (-l.center.x) (-l.center.y)] ∧
      transformPart l.recalculateMaskOps = transformPart l.redrawOriginalOps ∧
      transformPart l.applyTintOps = transformPart l.redrawOriginalOps := by
  refine ⟨?_, ?_, ?_⟩ <;>
    simp [Layer.redrawOriginalOps, Layer.recalculateMaskOps, Layer.applyTintOps,
      Layer.applyTransformationsOps, transformPart, mul_one]

/-- C6: Layer.rotate adds exactly twice the requested degree to the stored
rotation, and changes no other layer state — writing the old rotation back
into the result recovers the original layer, so every other field
(position, scale, masks, canvases, flags) is untouched. -/
theorem rotate_adds_double_degree (l : Layer) (d : Rat) :
    (l.rotate d).rotation = l.rotation + 2 * d ∧
      { l.rotate d with rotation := l.rotation } = l := by
  refine ⟨?_, rfl⟩
  simp [Layer.rotate, mul_comm]

/-- C7: with the customMask flag set (the state applyCustomMask leaves
behind), recalculateMask changes neither the working mask nor the rendered
mask — they stay byte-identical — and leaves the flag itself set, so
repeated calls remain no-ops until reset or resetMasks clears the flag. -/
theorem recalculateMask_customMask_noop (l : Layer) (h : l.customMask = true) :
    l.recalculateMask.mask = l.mask ∧
      l.recalculateMask.renderedMask = l.renderedMask ∧
      l.recalculateMask.customMask = true := by
  unfold Layer.recalculateMask
  cases hm : l.mask <;> cases hr : l.renderedMask <;> simp [h, hm, hr]

/-- Witness for C7 on a concrete custom-masked layer. -/
theorem recalculateMask_customMask_noop_witness :
    customMaskedLayer.customMask = true ∧
      customMaskedLayer.recalculateMask.mask = customMaskedLayer.mask ∧
      customMaskedLayer.recalculateMask.renderedMask = customMaskedLayer.renderedMask ∧
      customMaskedLayer.recalculateMask.customMask = true :=
  ⟨rfl,
    (recalculateMask_customMask_noop customMaskedLayer rfl).1,
    (recalculateMask_customMask_noop customMaskedLayer rfl).2.1,
    (recalculateMask_customMask_noop customMaskedLayer rfl).2.2⟩

/-- C10: Layer.translate subtracts the deltas from the stored position, and
changes nothing else — writing the old position back into the result
recovers the original layer, so in particular no canvas content changes
(the redraw call inside translate is commented out in the source). -/
theorem translate_subtracts_deltas (l : Layer) (dx dy : Rat) :
    (l.translate dx dy).position.x = l.position.x - dx ∧
      (l.translate dx dy).position.y = l.position.y - dy ∧
      { l.translate dx dy with position := l.position } = l :=
  ⟨rfl, rfl, rfl⟩

/-- C3: with customMaskLayers false, the mask providers applied by redraw
are exactly the mask-providing layers that the stack places higher than
this one (in stack order); and for the concrete stack [A, B, C] (ids 1, 2,
3, bottom first) with A and C mask-providing, resolving B selects C only. -/
theorem redrawMaskProviders_default_rule (v : View) (applied : List Nat) (selfId : Nat) :
    redrawMaskProviders v false applied selfId =
        (v.layers.filter (fun M => M.providesMask &&
          v.isOriginLayerHigher M.id selfId)).map (fun M => M.id) ∧
      redrawMaskProviders ⟨[⟨1, true⟩, ⟨2, false⟩, ⟨3, true⟩]⟩ false [] 2 = [3] := by
  refine ⟨?_, by decide⟩
  have hsome : ∀ M ∈ v.layers, (v.getMaskLayer M.id).isSome = true := by
    intro M hM
    unfold View.getMaskLayer
    rw [List.find?_isSome]
    exact ⟨M, hM, by simp⟩
  calc redrawMaskProviders v false applied selfId
      = ((v.layers.filter (fun M => M.providesMask)).map (fun M => M.id)).filter
          (fun i => (v.getMaskLayer i).isSome && v.isOriginLayerHigher i selfId) := by
        simp [redrawMaskProviders, View.maskIds]
    _ = ((v.layers.filter (fun M => M.providesMask)).filter
          (fun M => (v.getMaskLayer M.id).isSome &&
            v.isOriginLayerHigher M.id selfId)).map (fun M => M.id) := by
        rw [List.filter_map]
        rfl
    _ = (v.layers.filter (fun M =>
          ((v.getMaskLayer M.id).isSome && v.isOriginLayerHigher M.id selfId) &&
            M.providesMask)).map (fun M => M.id) := by
        rw [List.filter_filter]
    _ = (v.layers.filter (fun M => M.providesMask &&
          v.isOriginLayerHigher M.id selfId)).map (fun M => M.id) := by
        refine congrArg _ (List.filter_congr ?_)
        intro M hM
        simp [hsome M hM, Bool.and_comm]

/-! Helper development for the colour-key idempotence claim. -/

/-- The evolution of one RGBA buffer chunk under the matching test of one
reference colour: zeroed when it matches, kept otherwise. -/
def chunkStep (n : Color → Color → Bool) (c : Color)
    (p : Nat × Nat × Nat × Nat) : Nat × Nat × Nat × Nat :=
  if n c { red := p.1, blue := p.2.1, green := p.2.2.1, alpha := p.2.2.2 }
  then (0, 0, 0, 0) else p

/-- One chunk pushed through the whole reference-colour list. -/
def chunkFold (n : Color → Color → Bool) (colors : List Color)
    (p : Nat × Nat × Nat × Nat) : Nat × Nat × Nat × Nat :=
  colors.foldl (fun q c => chunkStep n c q) p

/-- The four buffer bytes of a chunk. -/
def quadList (p : Nat × Nat × Nat × Nat) : List Nat :=
  [p.1, p.2.1, p.2.2.1, p.2.2.2]

/-- The full multi-colour pass of applyTransparentPixels, without the
early-return guard. -/
def passAll (n : Color → Color → Bool) (colors : List Color)
    (data : List Nat) : List Nat :=
  colors.foldl (fun d c => zeroMatch n c d) data

theorem zeroMatch_cons_chunk (n : Color → Color → Bool) (c : Color)
    (r g b a : Nat) (rest : List Nat) :
    zeroMatch n c (r :: g :: b :: a :: rest) =
      quadList (chunkStep n c (r, g, b, a)) ++ zeroMatch n c rest := by
  show (if n c { red := r, blue := g, green := b, alpha := a }
        then [0, 0, 0, 0] else [r, g, b, a]) ++ zeroMatch n c rest = _
  unfold chunkStep quadList
  by_cases h : n c { red := r, blue := g, green := b, alpha := a } <;> simp [h]

theorem zeroMatch_short (n : Color → Color → Bool) (c : Color) :
    ∀ (l : List Nat), l.length < 4 → zeroMatch n c l = l
  | [], _ => rfl
  | [_], _ => rfl
  | [_, _], _ => rfl
  | [_, _, _], _ => rfl
  | _ :: _ :: _ :: _ :: _, h => by
    simp [List.length_cons] at h
    omega

theorem passAll_short (n : Color → Color → Bool) (colors : List Color)
    (l : List Nat) (hl : l.length < 4) : passAll n colors l = l := by
  induction colors with
  | nil => rfl
  | cons c cs ih =>
    show passAll n cs (zeroMatch n c l) = l
    rw [zeroMatch_short n c l hl]
    exact ih

theorem passAll_cons_chunk (n : Color → Color → Bool) (colors : List Color) :
    ∀ (r g b a : Nat) (rest : List Nat),
      passAll n colors (r :: g :: b :: a :: rest) =
        quadList (chunkFold n colors (r, g, b, a)) ++ passAll n colors rest := by
  induction colors with
  | nil => intro r g b a rest; rfl
  | cons c cs ih =>
    intro r g b a rest
    show passAll n cs (zeroMatch n c (r :: g :: b :: a :: rest)) = _
    rw [zeroMatch_cons_chunk]
    rcases hp : chunkStep n c (r, g, b, a) with ⟨r2, g2, b2, a2⟩
    show passAll n cs (r2 :: g2 :: b2 :: a2 :: zeroMatch n c rest) = _
    rw [ih r2 g2 b2 a2 (zeroMatch n c rest)]
    show _ = quadList (chunkFold n cs (chunkStep n c (r, g, b, a))) ++
      passAll n cs (zeroMatch n c rest)
    rw [hp]

theorem chunkStep_zero (n : Color → Color → Bool) (c : Color) :
    chunkStep n c (0, 0, 0, 0) = (0, 0, 0, 0) := by
  unfold chunkStep
  split <;> rfl

theorem chunkFold_zero (n : Color → Color → Bool) (colors : List Color) :
    chunkFold n colors (0, 0, 0, 0) = (0, 0, 0, 0) := by
  induction colors with
  | nil => rfl
  | cons c cs ih =>
    show chunkFold n cs (chunkStep n c (0, 0, 0, 0)) = _
    rw [chunkStep_zero]
    exact ih

theorem chunkFold_cases (n : Color → Color → Bool) (colors : List Color) :
    ∀ (p : Nat × Nat × Nat × Nat),
      chunkFold n colors p = p ∨ chunkFold n colors p = (0, 0, 0, 0) := by
  induction colors with
  | nil => intro p; exact Or.inl rfl
  | cons c cs ih =>
    intro p
    show chunkFold n cs (chunkStep n c p) = p ∨
      chunkFold n cs (chunkStep n c p) = (0, 0, 0, 0)
    by_cases h : n c { red := p.1, blue := p.2.1, green := p.2.2.1, alpha := p.2.2.2 }
    · have hz : chunkStep n c p = (0, 0, 0, 0) := by
        unfold chunkStep
        rw [if_pos h]
      rw [hz, chunkFold_zero]
      exact Or.inr rfl
    · have hk : chunkStep n c p = p := by
        unfold chunkStep
        rw [if_neg h]
      rw [hk]
      exact ih p

theorem chunkFold_idem (n : Color → Color → Bool) (colors : List Color)
    (p : Nat × Nat × Nat × Nat) :
    chunkFold n colors (chunkFold n colors p) = chunkFold n colors p := by
  rcases chunkFold_cases n colors p with h | h
  · rw [h]
    exact h
  · rw [h, chunkFold_zero]

theorem passAll_idem (n : Color → Color → Bool) (colors : List Color) :
    ∀ (d : List Nat), passAll n colors (passAll n colors d) = passAll n colors d
  | r :: g :: b :: a :: rest => by
    rw [passAll_cons_chunk]
    rcases hq : chunkFold n colors (r, g, b, a) with ⟨r2, g2, b2, a2⟩
    show passAll n colors (r2 :: g2 :: b2 :: a2 :: passAll n colors rest) = _
    rw [passAll_cons_chunk, passAll_idem n colors rest, ← hq, chunkFold_idem]
  | [] => by
    rw [passAll_short n colors [] (by simp), passAll_short n colors [] (by simp)]
  | [x] => by
    rw [passAll_short n colors [x] (by simp), passAll_short n colors [x] (by simp)]
  | [x, y] => by
    rw [passAll_short n colors [x, y] (by simp),
      passAll_short n colors [x, y] (by simp)]
  | [x, y, z] => by
    rw [passAll_short n colors [x, y, z] (by simp),
      passAll_short n colors [x, y, z] (by simp)]

/-- C9: the colour-key transparency pass is idempotent: running
applyTransparentPixels a second time with the same reference colours
changes no byte — every zeroed pixel stays (0, 0, 0, 0) and every kept
pixel still fails the match — whatever neighbourhood predicate
Color.isNeighborColor implements (the theorem quantifies over it). -/
theorem applyTransparentPixels_idempotent (n : Color → Color → Bool)
    (colors : List Color) (data : List Nat) :
    applyTransparentPixels n colors (applyTransparentPixels n colors data) =
      applyTransparentPixels n colors data := by
  by_cases h : colors.length = 0
  · simp [applyTransparentPixels, h]
  · have hb : applyTransparentPixels n colors = passAll n colors := by
      funext d
      simp [applyTransparentPixels, passAll, h]
    rw [hb]
    exact passAll_idem n colors data

/-- C2: evaluation of createOriginalMask at the failing input.  A 2 by 1
source with alpha bytes 0 and 255 is neither completely transparent nor
completely opaque at threshold 100, so the drawing branch runs; with a
degenerate empty contour the code evaluates points[0][0] on an empty list
and crashes (modelled as none) instead of taking the empty-mask path the
design document requires. -/
theorem createOriginalMask_degenerate_contour_crash :
    isCompletelyTransparent 100 ⟨2, 1, [0, 0, 0, 0, 0, 0, 0, 255]⟩ = false ∧
      isCompletelyOpaque 100 ⟨2, 1, [0, 0, 0, 0, 0, 0, 0, 255]⟩ = false ∧
      createOriginalMask 100 1 ⟨2, 1, [0, 0, 0, 0, 0, 0, 0, 255]⟩
        ⟨2, 1, [0, 0, 0, 0, 0, 0, 0, 255]⟩ [] = none := by
  decide

/-- A concrete stand-in for the factory-built layer of Layer.js:95-97: its
mask rasters are freshly generated from the decoded source by createMask,
not copies of the rasters of the layer being cloned. -/
def factoryFreshLayer : Layer :=
  { baseLayer with
    mask := some (sampleCanvas 30 [7, 7, 7, 7]),
    sourceMask := some (sampleCanvas 31 [7, 7, 7, 7]),
    renderedMask := some (sampleCanvas 32 [0, 0, 0, 0]) }

/-- C4: evaluation of clone at a concrete layer.  Lines 111-112 of
Layer.js reassign the sourceMask and renderedMask of the ORIGINAL layer to
fresh value copies (the canvas identities change while the bytes stay),
and the returned clone keeps the factory-fresh rasters instead of value
copies of the original ones; only the working mask (line 110) is copied
onto the clone as the claim describes. -/
theorem clone_mask_aliasing_bug :
    ((baseLayer.clone factoryFreshLayer 100 101 102).2.renderedMask ≠
        baseLayer.renderedMask) ∧
      ((baseLayer.clone factoryFreshLayer 100 101 102).2.sourceMask ≠
        baseLayer.sourceMask) ∧
      ((baseLayer.clone factoryFreshLayer 100 101 102).2.renderedMask.map
          Canvas.content = baseLayer.renderedMask.map Canvas.content) ∧
      ((baseLayer.clone factoryFreshLayer 100 101 102).1.renderedMask.map
          Canvas.content ≠ baseLayer.renderedMask.map Canvas.content) ∧
      ((baseLayer.clone factoryFreshLayer 100 101 102).1.sourceMask.map
          Canvas.content ≠ baseLayer.sourceMask.map Canvas.content) ∧
      ((baseLayer.clone factoryFreshLayer 100 101 102).1.mask.map
          Canvas.content = baseLayer.mask.map Canvas.content) := by
  decide

/-- C8 counterexample: a 1 by 1 source whose single alpha byte equals the
threshold (100) satisfies the claimed at-or-above-threshold hypothesis,
yet mask creation returns the all-zero mask rather than the claimed
all-255 one: the all-transparent test uses less-or-equal and runs first,
so it captures a raster sitting exactly on the threshold. -/
theorem createOriginalMask_threshold_boundary_counterexample :
    (∀ a ∈ alphaBytes (⟨1, 1, [0, 0, 0, 100]⟩ : Raster).data, 100 ≤ a) ∧
      createOriginalMask 100 1 ⟨1, 1, [0, 0, 0, 100]⟩ ⟨1, 1, [0, 0, 0, 100]⟩ [] =
        some ⟨1, 1, [0, 0, 0, 0]⟩ ∧
      ¬ (∀ a ∈ alphaBytes ([0, 0, 0, 0] : List Nat), a = 255) := by
  decide

theorem drawImageRegion_allzero (w h w2 h2 k m sx sy sw sh dx dy dw dh : Nat) :
    (drawImageRegion ⟨w, h, List.replicate k 0⟩ ⟨w2, h2, List.replicate m 0⟩
        sx sy sw sh dx dy dw dh).data =
      (List.replicate (h * w) [0, 0, 0, 0]).flatten := by
  unfold drawImageRegion
  apply renderPixels_const
  intro i j _ _
  split
  · rw [pixelAt_allzero, compositeOver_zero_src, pixelAt_allzero]
  · rw [pixelAt_allzero]

/-- C8 (amended): the two mask-creation fast paths.  For a source whose
alpha bytes are all strictly below the threshold, the produced mask has
every alpha byte 0; for a nonempty source whose alpha bytes are all
strictly ABOVE the threshold, every alpha byte is 255.  (As stated, with
"at or above the threshold", the opaque direction fails: a source whose
alphas all equal the threshold takes the all-transparent path, because
that test uses less-or-equal and runs first.)  In both cases the produced
mask raster has the source dimensions. -/
theorem createOriginalMask_fast_paths (T D : Nat) (canvas source : Raster)
    (points : List (List Rat)) :
    ((∀ a ∈ alphaBytes source.data, a < T) →
      ∃ m, createOriginalMask T D canvas source points = some m ∧
        m.width = source.width ∧ m.height = source.height ∧
        ∀ a ∈ alphaBytes m.data, a = 0) ∧
    (alphaBytes source.data ≠ [] → (∀ a ∈ alphaBytes source.data, T < a) →
      ∃ m, createOriginalMask T D canvas source points = some m ∧
        m.width = source.width ∧ m.height = source.height ∧
        ∀ a ∈ alphaBytes m.data, a = 255) := by
  constructor
  · intro hbelow
    have ht : isCompletelyTransparent T source = true := by
      unfold isCompletelyTransparent
      rw [List.all_eq_true]
      intro a ha
      have hlt := hbelow a ha
      simp
      omega
    refine ⟨finishMask D source (clearAll (maskTemp D canvas)), ?_, rfl, rfl, ?_⟩
    · simp [createOriginalMask, ht]
    · have hdata : (finishMask D source (clearAll (maskTemp D canvas))).data =
          (List.replicate (source.height * source.width) [0, 0, 0, 0]).flatten := by
        show (drawImageRegion
            ⟨source.width, source.height,
              List.replicate (source.width * source.height * 4) 0⟩
            ⟨D + 2, D + 2, List.replicate ((D + 2) * (D + 2) * 4) 0⟩
            1 1 D D 0 0 source.width source.height).data = _
        exact drawImageRegion_allzero _ _ _ _ _ _ _ _ _ _ _ _ _ _
      intro a ha
      rw [hdata, alphaBytes_join_quad] at ha
      exact List.eq_of_mem_replicate ha
  · intro hne habove
    have ht : isCompletelyTransparent T source = false := by
      unfold isCompletelyTransparent
      cases hall : (alphaBytes source.data).all (fun a => !decide (T < a)) with
      | false => rfl
      | true =>
        exfalso
        rw [List.all_eq_true] at hall
        obtain ⟨a0, ha0⟩ := List.exists_mem_of_ne_nil _ hne
        have h1 := hall a0 ha0
        have h2 := habove a0 ha0
        simp at h1
        omega
    have hopq : isCompletelyOpaque T source = true := by
      unfold isCompletelyOpaque
      rw [List.all_eq_true]
      intro a ha
      have hlt := habove a ha
      simp
      omega
    refine ⟨finishMask D source (fillRectBlackFull (clearAll (maskTemp D canvas))),
      ?_, rfl, rfl, ?_⟩
    · simp [createOriginalMask, ht, hopq]
    · have htemp : fillRectBlackFull (clearAll (maskTemp D canvas)) =
          (⟨D + 2, D + 2,
            (List.replicate ((D + 2) * (D + 2)) [0, 0, 0, 255]).flatten⟩ : Raster) := by
        show (⟨D + 2, D + 2,
            renderPixels (D + 2) (D + 2) (fun _ _ => [0, 0, 0, 255])⟩ : Raster) = _
        rw [renderPixels_const (D + 2) (D + 2) _ [0, 0, 0, 255] (fun _ _ _ _ => rfl)]
      have hdata : (finishMask D source
            (fillRectBlackFull (clearAll (maskTemp D canvas)))).data =
          (List.replicate (source.height * source.width) [0, 0, 0, 255]).flatten := by
        rw [htemp]
        unfold finishMask
        show (drawImageRegion
            ⟨source.width, source.height,
              List.replicate (source.width * source.height * 4) 0⟩
            ⟨D + 2, D + 2,
              (List.replicate ((D + 2) * (D + 2)) [0, 0, 0, 255]).flatten⟩
            1 1 D D 0 0 source.width source.height).data = _
        unfold drawImageRegion
        apply renderPixels_const
        intro i j hi hj
        replace hi : i < source.width := hi
        replace hj : j < source.height := hj
        rw [if_pos ⟨by omega, by omega, by omega, by omega, by omega, by omega⟩]
        have hsx : 1 + ((i - 0) * D) / source.width < D + 2 := by
          have := sample_div_lt i source.width D hi
          simpa using this
        have hsy : 1 + ((j - 0) * D) / source.height < D + 2 := by
          have := sample_div_lt j source.height D hj
          simpa using this
        rw [pixelAt_quadJoin (D + 2) (D + 2) _ _ 0 0 0 255 hsx hsy,
          compositeOver_opaque_src]
      intro a ha
      rw [hdata, alphaBytes_join_quad] at ha
      exact List.eq_of_mem_replicate ha

/-- Witness for C8 (amended) on concrete 1 by 1 sources at threshold 5. -/
theorem createOriginalMask_fast_paths_witness :
    ((∀ a ∈ alphaBytes (⟨1, 1, [0, 0, 0, 0]⟩ : Raster).data, a < 5) ∧
      ∃ m, createOriginalMask 5 1 ⟨1, 1, [0, 0, 0, 0]⟩ ⟨1, 1, [0, 0, 0, 0]⟩ [] =
          some m ∧
        m.width = 1 ∧ m.height = 1 ∧ ∀ a ∈ alphaBytes m.data, a = 0) ∧
    ((alphaBytes (⟨1, 1, [0, 0, 0, 9]⟩ : Raster).data ≠ [] ∧
        (∀ a ∈ alphaBytes (⟨1, 1, [0, 0, 0, 9]⟩ : Raster).data, 5 < a)) ∧
      ∃ m, createOriginalMask 5 1 ⟨1, 1, [0, 0, 0, 9]⟩ ⟨1, 1, [0, 0, 0, 9]⟩ [] =
          some m ∧
        m.width = 1 ∧ m.height = 1 ∧ ∀ a ∈ alphaBytes m.data, a = 255) :=
  ⟨⟨by decide,
      (createOriginalMask_fast_paths 5 1 ⟨1, 1, [0, 0, 0, 0]⟩
        ⟨1, 1, [0, 0, 0, 0]⟩ []).1 (by decide)⟩,
    ⟨⟨by decide, by decide⟩,
      (createOriginalMask_fast_paths 5 1 ⟨1, 1, [0, 0, 0, 9]⟩
        ⟨1, 1, [0, 0, 0, 9]⟩ []).2 (by decide) (by decide)⟩⟩

end Tokenizer
